import Mathlib

/-!
Verification model of the portmap-client tunnel lifecycle manager.

The definitions below are a shallow embedding of the Go sources:
  - internal/wireguard/config.go   (ParseConfig)
  - internal/wireguard/setup.go    (Manager.Setup, setupWireguardDevice,
                                    configureIPAddress, addRoutes, Cleanup,
                                    GetTrafficStats, convertKey, isValidIP,
                                    isValidInterfaceName)
  - cmd/connect (RunE monitor loop)

Go strings are modelled as Lean `String`; the Go standard-library string
primitives used by the code (strings.Split with one-character separators,
strings.HasPrefix, strings.TrimSpace, strings.TrimPrefix, strings.Fields,
strings.Contains) are re-implemented here as structural recursions over
`String.data` so that every definition evaluates inside the kernel.  The
network-address parsing of the Go net package (net.ParseIP, net.ParseCIDR)
is modelled for IPv4 dotted-decimal inputs, the only address family that
appears in the configuration format of this client; strings that are not
IPv4 forms are rejected, as Go does for malformed text.  External effects
(TUN creation, UAPI device configuration, process spawning) are modelled
by oracles supplied as explicit parameters, and each operation returns the
list of external actions it performed alongside its result.
-/

namespace Portmap

/-! ### Go string primitives -/

/-- Model of Go strings.Split with a one-character separator, over char
lists.  Splitting the empty string yields one empty field, as in Go. -/
def splitCharList (sep : Char) : List Char → List (List Char)
  | [] => [[]]
  | c :: cs =>
    if c = sep then [] :: splitCharList sep cs
    else
      match splitCharList sep cs with
      | [] => [[c]]
      | h :: t => (c :: h) :: t

/-- Go strings.Split(s, sep) for a one-character separator. -/
def goSplitChar (s : String) (sep : Char) : List String :=
  (splitCharList sep s.data).map String.mk

/-- Go strings.HasPrefix. -/
def goHasPfx (s p : String) : Bool :=
  p.data.isPrefixOf s.data

/-- Go strings.TrimPrefix: drops the prefix when present, else identity. -/
def goTrimPfx (s p : String) : String :=
  if goHasPfx s p then String.mk (s.data.drop p.data.length) else s

/-- Characters trimmed by strings.TrimSpace (ASCII whitespace scope). -/
def trimCharsList (l : List Char) : List Char :=
  ((l.dropWhile Char.isWhitespace).reverse.dropWhile Char.isWhitespace).reverse

/-- Go strings.TrimSpace (ASCII whitespace scope). -/
def goTrimSpace (s : String) : String :=
  String.mk (trimCharsList s.data)

/-- Accumulator pass of Go strings.Fields: whitespace-separated fields. -/
def fieldsAux : List Char → List Char → List (List Char)
  | [], acc => if acc.isEmpty then [] else [acc.reverse]
  | c :: cs, acc =>
    if c.isWhitespace then
      if acc.isEmpty then fieldsAux cs [] else acc.reverse :: fieldsAux cs []
    else fieldsAux cs (c :: acc)

/-- Go strings.Fields. -/
def goFields (s : String) : List String :=
  (fieldsAux s.data []).map String.mk

/-- Substring search over char lists (Go strings.Contains). -/
def containsSub (s sub : List Char) : Bool :=
  sub.isPrefixOf s ||
    match s with
    | [] => false
    | _ :: cs => containsSub cs sub

/-- Go strings.Contains. -/
def goContains (s sub : String) : Bool :=
  containsSub s.data sub.data

/-- Join a list of strings with a separator (used to model the text after
the first separator occurrence when Go slices at the first index). -/
def joinSep (sep : String) : List String → String
  | [] => ""
  | [x] => x
  | x :: xs => x ++ sep ++ joinSep sep xs

/-- All characters are ASCII digits and the string is nonempty. -/
def digitsOnly (s : String) : Bool :=
  !s.data.isEmpty && s.data.all Char.isDigit

/-- Decimal value of a digit string. -/
def digitsVal (s : String) : Nat :=
  s.data.foldl (fun a c => a * 10 + (c.toNat - 48)) 0

/-! ### Go net package model (IPv4 scope) -/

/-- One dotted-decimal IPv4 field as accepted by Go net.ParseIP:
nonempty digits, no leading zero, value at most 255. -/
def parseIPv4Field (s : String) : Option Nat :=
  if !digitsOnly s then none
  else if s.data.length > 1 && s.data.headD ' ' = '0' then none
  else
    let v := digitsVal s
    if v ≤ 255 then some v else none

/-- Go net.ParseIP restricted to IPv4 dotted-decimal inputs; yields the
four byte values.  Non-IPv4 text is rejected. -/
def goParseIP (s : String) : Option (List Nat) :=
  match (goSplitChar s '.').mapM parseIPv4Field with
  | some [a, b, c, d] => some [a, b, c, d]
  | _ => none

/-- CIDR mask length as accepted by Go net.ParseCIDR: nonempty digits,
no leading zero, value at most 32 for IPv4. -/
def parseMaskLen (s : String) : Option Nat :=
  if !digitsOnly s then none
  else if s.data.length > 1 && s.data.headD ' ' = '0' then none
  else
    let v := digitsVal s
    if v ≤ 32 then some v else none

/-- Byte i (0-based) of the IPv4 mask with n leading one bits. -/
def maskByte (n i : Nat) : Nat :=
  256 - 2 ^ (8 - min 8 (n - 8 * i))

/-- The four bytes of the IPv4 mask with n leading one bits
(Go net.CIDRMask(n, 32)). -/
def maskBytes (n : Nat) : List Nat :=
  [maskByte n 0, maskByte n 1, maskByte n 2, maskByte n 3]

/-- Dotted-decimal rendering of a four-byte value (Go net.IP.String for
IPv4 addresses and masks). -/
def ipDotted (bs : List Nat) : String :=
  joinSep "." (bs.map (fun b => toString b))

/-- Go net.ParseCIDR restricted to IPv4: splits at the first slash,
parses the address and the mask length, and yields the full address
bytes, the masked network bytes and the mask length. -/
def goParseCIDR (s : String) : Option (List Nat × List Nat × Nat) :=
  match goSplitChar s '/' with
  | [] => none
  | [_] => none
  | addrStr :: rest =>
    match goParseIP addrStr with
    | none => none
    | some ip =>
      match parseMaskLen (joinSep "/" rest) with
      | none => none
      | some n => some (ip, List.zipWith (fun a b => a &&& b) ip (maskBytes n), n)

/-! ### Key material: base64 decoding and hex encoding -/

/-- Value of one character of the standard base64 alphabet. -/
def b64Val (c : Char) : Option Nat :=
  if 'A' ≤ c ∧ c ≤ 'Z' then some (c.toNat - 65)
  else if 'a' ≤ c ∧ c ≤ 'z' then some (c.toNat - 71)
  else if '0' ≤ c ∧ c ≤ '9' then some (c.toNat + 4)
  else if c = '+' then some 62
  else if c = '/' then some 63
  else none

/-- Decode base64 four-character quanta with mandatory standard padding,
as Go encoding/base64 StdEncoding does.  Padding may appear only in the
final quantum, and input whose length is not a multiple of four is
rejected. -/
def b64Quanta : List Char → Option (List Nat)
  | [] => some []
  | c1 :: c2 :: c3 :: c4 :: rest => do
    let v1 ← b64Val c1
    let v2 ← b64Val c2
    if c4 = '=' then
      if !rest.isEmpty then none
      else if c3 = '=' then
        some [(v1 <<< 2) ||| (v2 >>> 4)]
      else do
        let v3 ← b64Val c3
        some [(v1 <<< 2) ||| (v2 >>> 4), ((v2 % 16) <<< 4) ||| (v3 >>> 2)]
    else do
      let v3 ← b64Val c3
      let v4 ← b64Val c4
      let bs ← b64Quanta rest
      some (((v1 <<< 2) ||| (v2 >>> 4)) ::
            (((v2 % 16) <<< 4) ||| (v3 >>> 2)) ::
            (((v3 % 4) <<< 6) ||| v4) :: bs)
  | _ => none

/-- Go base64.StdEncoding.DecodeString: newline characters are skipped,
then padded quanta are decoded. -/
def base64DecodeStd (s : String) : Option (List Nat) :=
  b64Quanta (s.data.filter (fun c => c != '\n' && c != '\r'))

/-- One lowercase hex digit. -/
def hexDigitChar (n : Nat) : Char :=
  if n < 10 then Char.ofNat (48 + n) else Char.ofNat (87 + n)

/-- Go hex.EncodeToString over byte values. -/
def hexEncode (bs : List Nat) : String :=
  String.mk (bs.foldr (fun b acc => hexDigitChar (b / 16 % 16) :: hexDigitChar (b % 16) :: acc) [])

/-- setup.go convertKey: trim the base64 key material, decode it, and
hex-encode the result; a decode failure is an error. -/
def convertKey (b64Key : String) : Except String String :=
  match base64DecodeStd (goTrimSpace b64Key) with
  | none => .error "failed to decode base64 key"
  | some bs => .ok (hexEncode bs)

/-! ### Data model (internal/config, internal/wireguard) -/

/-- Interface section of WireguardConfig (pkg internal/config). -/
structure InterfaceConfig where
  PrivateKey : String
  Address : String
  DNS : String
deriving DecidableEq

/-- Peer section of WireguardConfig (pkg internal/config). -/
structure PeerConfig where
  PublicKey : String
  AllowedIPs : List String
  Endpoint : String
  PersistentKeepalive : Int
deriving DecidableEq

/-- WireguardConfig (pkg internal/config). -/
structure WireguardConfig where
  Interface : InterfaceConfig
  Peer : PeerConfig
deriving DecidableEq

/-- The key/value view of a configuration source file as the ini library
presents it to ParseConfig: each field holds the string value of the
corresponding section key, with the empty string for an absent key
(ini Key.String returns the empty string when the key is missing). -/
structure IniFile where
  portmapConfigID : String
  interfacePrivateKey : String
  interfaceAddress : String
  interfaceDNS : String
  peerPublicKey : String
  peerAllowedIPs : String
  peerEndpoint : String
  peerPersistentKeepalive : String

/-- Go strconv.ParseInt(s, 10, 64): optional sign, decimal digits,
int64 range; failure yields none (ini Key.MustInt then falls back to
its default argument). -/
def goParseInt64 (s : String) : Option Int :=
  let core :=
    if goHasPfx s "-" then some (-1, String.mk (s.data.drop 1))
    else if goHasPfx s "+" then some (1, String.mk (s.data.drop 1))
    else some (1, s)
  match core with
  | some (sign, digits) =>
    if digitsOnly digits then
      let v : Int := sign * Int.ofNat (digitsVal digits)
      if v < -(2 ^ 63) ∨ 2 ^ 63 ≤ v then none else some v
    else none
  | none => none

/-- config.go ParseConfig on the key/value view of the source file:
extracts config_id, the Interface section and the Peer section, splits
AllowedIPs at commas, defaults PersistentKeepalive to 25, and then
validates required fields in source order. -/
def ParseConfig (f : IniFile) : Except String (WireguardConfig × String) :=
  if f.portmapConfigID = "" then .error "config_id not found in [portmap] section"
  else
    let cfg : WireguardConfig :=
      { Interface := { PrivateKey := f.interfacePrivateKey
                       Address := f.interfaceAddress
                       DNS := f.interfaceDNS }
        Peer := { PublicKey := f.peerPublicKey
                  AllowedIPs := goSplitChar f.peerAllowedIPs ','
                  Endpoint := f.peerEndpoint
                  PersistentKeepalive := (goParseInt64 f.peerPersistentKeepalive).getD 25 } }
    if cfg.Interface.PrivateKey = "" then .error "missing private key"
    else if cfg.Interface.Address = "" then .error "missing interface address"
    else if cfg.Peer.PublicKey = "" then .error "missing peer public key"
    else if cfg.Peer.Endpoint = "" then .error "missing peer endpoint"
    else if cfg.Peer.AllowedIPs.length = 0 then .error "missing allowed IPs"
    else .ok (cfg, f.portmapConfigID)

/-! ### External command model -/

/-- One external command invocation: program and argument vector
(exec.Command never passes through a shell). -/
structure Cmd where
  prog : String
  args : List String
deriving DecidableEq

/-- Outcome of running one external command: exit status and combined
output (exec.Cmd.CombinedOutput). -/
structure ExecOutcome where
  success : Bool
  output : String

/-- The runtime.GOOS values distinguished by the code. -/
inductive Platform where
  | darwin
  | linux
  | windows
deriving DecidableEq

/-- setup.go getTunnelName. -/
def getTunnelName (os : Platform) : String :=
  match os with
  | .darwin => "utun"
  | .windows => "wg0"
  | .linux => "wg0"

/-- setup.go isValidIP: the string parses as a CIDR or as a bare IP. -/
def isValidIP (ipStr : String) : Bool :=
  (goParseCIDR ipStr).isSome || (goParseIP ipStr).isSome

/-- Nonempty digit tail check for interface-name validation. -/
def allDigitsTail (s : String) : Bool :=
  !s.data.isEmpty && s.data.all Char.isDigit

/-- setup.go isValidInterfaceName: the regular expression
(utun|wg|tun)[0-9]+ anchored at both ends. -/
def isValidInterfaceName (name : String) : Bool :=
  (goHasPfx name "utun" && allDigitsTail (String.mk (name.data.drop 4))) ||
  (goHasPfx name "wg" && allDigitsTail (String.mk (name.data.drop 2))) ||
  (goHasPfx name "tun" && allDigitsTail (String.mk (name.data.drop 3)))

/-! ### Tunnel device controller (setup.go) -/

/-- The observable external actions of the tunnel lifecycle manager. -/
inductive Event where
  | createTUN (requested : String)
  | ipcSet (cfg : String)
  | up
  | close
  | exec (c : Cmd)
deriving DecidableEq

/-- Oracles for the effects of the wireguard-go library calls made by
setupWireguardDevice, plus the external-command executor. -/
structure TunEnv where
  createTUNOk : Bool
  tunName : Except String String
  ipcSetOk : String → Bool
  upOk : Bool
  execF : Cmd → ExecOutcome

/-- The five lines of the UAPI configuration block built by
setupWireguardDevice (one fmt.Sprintf in the source). -/
def uapiConfigLines (privHex pubHex endpoint allowedFirst : String)
    (keepalive : Int) : List String :=
  ["private_key=" ++ privHex,
   "public_key=" ++ pubHex,
   "endpoint=" ++ endpoint,
   "allowed_ip=" ++ allowedFirst,
   "persistent_keepalive_interval=" ++ toString keepalive]

/-- Newline-terminated join, matching the Sprintf format string in which
every line ends with a newline. -/
def joinLines (ls : List String) : String :=
  String.join (ls.map (fun l => l ++ "\n"))

/-- The UAPI configuration text of setupWireguardDevice: both keys are
converted from base64 to hex (each failure is an error), the endpoint
and the FIRST allowed range are trimmed and interpolated.  The source
indexes AllowedIPs[0]; parsed configurations always have at least one
entry because strings.Split never returns an empty slice. -/
def buildUapiConfig (cfg : WireguardConfig) : Except String String :=
  match convertKey cfg.Interface.PrivateKey with
  | .error _ => .error "invalid private key"
  | .ok privHex =>
    match convertKey cfg.Peer.PublicKey with
    | .error _ => .error "invalid public key"
    | .ok pubHex =>
      .ok (joinLines (uapiConfigLines privHex pubHex
        (goTrimSpace cfg.Peer.Endpoint)
        (goTrimSpace (cfg.Peer.AllowedIPs.headD ""))
        cfg.Peer.PersistentKeepalive))

/-- setup.go setupWireguardDevice: create the TUN device, read its
actual name, build and apply the UAPI configuration, then call Up.
The return value of dev.Up() is discarded by the source (setup.go:119),
so the upOk oracle is read but never influences the result. -/
def setupWireguardDevice (os : Platform) (env : TunEnv) (cfg : WireguardConfig) :
    Except String String × List Event :=
  let tn := getTunnelName os
  let evs := [Event.createTUN tn]
  if env.createTUNOk = false then (.error "failed to create TUN device", evs)
  else
    match env.tunName with
    | .error _ => (.error "failed to get interface name", evs)
    | .ok actualName =>
      match buildUapiConfig cfg with
      | .error e => (.error e, evs)
      | .ok uapi =>
        let evs := evs ++ [Event.ipcSet uapi]
        if env.ipcSetOk uapi = false then (.error "failed to configure device", evs)
        else
          let _upErrDiscarded := env.upOk
          (.ok actualName, evs ++ [Event.up])

/-! ### Host network configurator (setup.go) -/

/-- setup.go configureIPAddress: parse the interface address as a CIDR
(fail closed otherwise), then run the platform address commands.  On
darwin the peer address equals the local address (self-to-self); the
netmask string is derived from the mask bytes.  The interface name is
interpolated without validation. -/
def configureIPAddress (os : Platform) (execF : Cmd → ExecOutcome)
    (ifName address : String) : Except String Unit × List Cmd :=
  match goParseCIDR address with
  | none => (.error "invalid IP address format", [])
  | some (ip, _network, pfxLen) =>
    match os with
    | .darwin =>
      let c : Cmd := ⟨"ifconfig", [ifName, "inet", ipDotted ip, ipDotted ip,
                                   "netmask", ipDotted (maskBytes pfxLen)]⟩
      if (execF c).success then (.ok (), [c])
      else (.error "failed to set IP address", [c])
    | .linux =>
      let cUp : Cmd := ⟨"ip", ["link", "set", ifName, "up"]⟩
      if (execF cUp).success = false then (.error "failed to bring up interface", [cUp])
      else
        let cAddr : Cmd := ⟨"ip", ["addr", "add", "dev", ifName, address]⟩
        if (execF cAddr).success then (.ok (), [cUp, cAddr])
        else (.error "failed to set IP address", [cUp, cAddr])
    | .windows =>
      let c : Cmd := ⟨"netsh", ["interface", "ip", "set", "address", ifName,
                                "static", ipDotted ip, ipDotted (maskBytes pfxLen)]⟩
      if (execF c).success then (.ok (), [c])
      else (.error "failed to set IP address", [c])

/-- The interface-listing command the windows route branch runs to
resolve an interface index. -/
def winIfaceQuery : Cmd :=
  ⟨"netsh", ["interface", "ipv4", "show", "interfaces"]⟩

/-- setup.go addRoutes windows branch: scan the listing output line by
line for the first line containing the interface name that has at least
one whitespace-separated field, and take its first field as the index. -/
def findInterfaceIndex (output ifName : String) : Option String :=
  let rec go : List String → Option String
    | [] => none
    | l :: ls =>
      if goContains l ifName then
        match goFields l with
        | f :: _ => some f
        | [] => go ls
      else go ls
  go (goSplitChar output '\n')

/-- One iteration body of the addRoutes loop after the validity checks:
the platform route commands for one allowed range.  address is the
interface CIDR from the configuration (the windows branch derives its
gateway from it). -/
def routeCmdsForRange (os : Platform) (execF : Cmd → ExecOutcome)
    (ifName address allowedIP : String) : Except String Unit × List Cmd :=
  match os with
  | .darwin =>
    let c : Cmd := ⟨"route", ["add", "-net", allowedIP, "-interface", ifName]⟩
    if (execF c).success then (.ok (), [c])
    else (.error ("failed to add route " ++ allowedIP), [c])
  | .linux =>
    let c : Cmd := ⟨"ip", ["route", "add", allowedIP, "dev", ifName]⟩
    if (execF c).success then (.ok (), [c])
    else (.error ("failed to add route " ++ allowedIP), [c])
  | .windows =>
    let out := execF winIfaceQuery
    if out.success = false then (.error "failed to get interface index", [winIfaceQuery])
    else
      match findInterfaceIndex out.output ifName with
      | none => (.error ("could not find interface index for " ++ ifName), [winIfaceQuery])
      | some idx =>
        match goParseCIDR allowedIP with
        | none => (.error "invalid CIDR format", [winIfaceQuery])
        | some (_ip, network, pfxLen) =>
          let gateway := (goSplitChar address '/').headD ""
          let c : Cmd := ⟨"route", ["add", ipDotted network, "mask",
                                    ipDotted (maskBytes pfxLen), gateway,
                                    "metric", "1", "IF", idx]⟩
          if (execF c).success then (.ok (), [winIfaceQuery, c])
          else (.error ("failed to add route " ++ allowedIP), [winIfaceQuery, c])

/-- setup.go addRoutes: for each allowed range in order, reject the
range unless it parses as a CIDR or bare IP, reject a nonconforming
interface name, then run the platform route commands; the first failure
stops the loop.  Both rejections happen before any command of that
iteration is spawned. -/
def addRoutes (os : Platform) (execF : Cmd → ExecOutcome)
    (ifName address : String) : List String → Except String Unit × List Cmd
  | [] => (.ok (), [])
  | allowedIP :: rest =>
    if isValidIP allowedIP = false then
      (.error ("invalid IP address: " ++ allowedIP), [])
    else if isValidInterfaceName ifName = false then
      (.error ("invalid interface name: " ++ ifName), [])
    else
      match routeCmdsForRange os execF ifName address allowedIP with
      | (.error e, cs) => (.error e, cs)
      | (.ok _, cs) =>
        ((addRoutes os execF ifName address rest).1,
         cs ++ (addRoutes os execF ifName address rest).2)

/-! ### Manager.Setup, Cleanup, GetTrafficStats -/

/-- setup.go Manager.Setup: device bring-up, then address assignment,
then route installation; each failure returns immediately.  No step of
this function, and no caller on the connect path (cmd/connect RunE
returns the Setup error directly), closes the device on failure. -/
def Setup (os : Platform) (env : TunEnv) (cfg : WireguardConfig) :
    Except String Unit × List Event :=
  match setupWireguardDevice os env cfg with
  | (.error e, evs) => (.error e, evs)
  | (.ok name, evs) =>
    match configureIPAddress os env.execF name cfg.Interface.Address with
    | (.error e, cmds) => (.error e, evs ++ cmds.map Event.exec)
    | (.ok _, cmds) =>
      let (r, cmds2) := addRoutes os env.execF name cfg.Interface.Address cfg.Peer.AllowedIPs
      (r, evs ++ cmds.map Event.exec ++ cmds2.map Event.exec)

/-- cmd/connect RunE setup phase: ParseConfig would already have run;
on a Setup error RunE returns it to cobra unchanged without invoking
Manager.Cleanup (Cleanup is reached only from the signal handler). -/
def connectSetupPhase (os : Platform) (env : TunEnv) (cfg : WireguardConfig) :
    Except String Unit × List Event :=
  Setup os env cfg

/-- setup.go Manager.Cleanup: close the device when present, then run
the platform interface teardown command; all errors are ignored. -/
def Cleanup (os : Platform) (hasDevice : Bool) (ifName : String) : List Event :=
  (if hasDevice then [Event.close] else []) ++
  (match os with
   | .darwin => [Event.exec ⟨"ifconfig", [ifName, "down"]⟩]
   | .linux => [Event.exec ⟨"ip", ["link", "del", ifName]⟩]
   | .windows => [Event.exec ⟨"netsh", ["interface", "delete", ifName]⟩])

/-- Go strconv.ParseUint(s, 10, 64) as consumed by GetTrafficStats,
which discards the error: a syntax error leaves the returned value 0,
an out-of-range value is clamped to 2^64 - 1. -/
def goParseUint64 (s : String) : Nat :=
  if digitsOnly s then
    let v := digitsVal s
    if 2 ^ 64 ≤ v then 2 ^ 64 - 1 else v
  else 0

/-- setup.go Manager.GetTrafficStats: the zero sample when the device
handle is absent or the status query fails; otherwise scan the status
lines, assigning rx from every rx_bytes= line and tx from every
tx_bytes= line with the error-discarding ParseUint above. -/
def GetTrafficStats (hasDevice : Bool) (ipcGet : Except String String) : Nat × Nat :=
  if hasDevice = false then (0, 0)
  else
    match ipcGet with
    | .error _ => (0, 0)
    | .ok stats =>
      (goSplitChar stats '\n').foldl
        (fun acc line =>
          if goHasPfx line "rx_bytes=" then
            (goParseUint64 (goTrimPfx line "rx_bytes="), acc.2)
          else if goHasPfx line "tx_bytes=" then
            (acc.1, goParseUint64 (goTrimPfx line "tx_bytes="))
          else acc)
        (0, 0)

/-! ### Connect monitor loop (cmd/connect RunE) -/

/-- One timer tick of the monitor goroutine in cmd/connect RunE: in
service mode, or when no mapping rules were collected, nothing is
sampled or rendered; otherwise the sample is compared with the last
observed one and the two-line display is re-rendered in place (and the
last observed sample updated) exactly when either counter changed.
Returns the new last observed sample and whether the display was
re-rendered. -/
def monitorTick (serviceMode : Bool) (mappingRules : List String)
    (last sample : Nat × Nat) : (Nat × Nat) × Bool :=
  if serviceMode = false ∧ 0 < mappingRules.length then
    if sample.1 ≠ last.1 ∨ sample.2 ≠ last.2 then (sample, true)
    else (last, false)
  else (last, false)

/-! ### Shared helpers and concrete fixtures -/

/-- Whether an Except value is an error. -/
def isErr {α : Type} : Except String α → Bool
  | .error _ => true
  | .ok _ => false

/-- Base64 encoding of the all-zero 32-byte key: 43 letters A and one
padding character. -/
def zeroKey : String := "AAAAAAAAAAAAAAAAAAAAAAAAAAAAAAAAAAAAAAAAAAA="

/-- A well-formed configuration source, matching the example of the
specification: two comma-separated allowed ranges. -/
def srcOK : IniFile :=
  { portmapConfigID := "12345"
    interfacePrivateKey := zeroKey
    interfaceAddress := "10.0.0.2/24"
    interfaceDNS := ""
    peerPublicKey := zeroKey
    peerAllowedIPs := "10.0.0.0/24,10.0.1.0/24"
    peerEndpoint := "193.161.193.99:51820"
    peerPersistentKeepalive := "25" }

/-- The parsed form of srcOK. -/
def cfgOK : WireguardConfig :=
  { Interface := { PrivateKey := zeroKey, Address := "10.0.0.2/24", DNS := "" }
    Peer := { PublicKey := zeroKey
              AllowedIPs := ["10.0.0.0/24", "10.0.1.0/24"]
              Endpoint := "193.161.193.99:51820"
              PersistentKeepalive := 25 } }

/-- cfgOK with an interface address that is not a CIDR; every other
field is valid, so device creation, configuration and activation all
succeed before address assignment fails. -/
def cfgBadAddr : WireguardConfig :=
  { cfgOK with Interface := { cfgOK.Interface with Address := "not-a-cidr" } }

/-- An executor for which every external command succeeds with empty
output. -/
def execAllOk : Cmd → ExecOutcome := fun _ => ⟨true, ""⟩

/-- A fully successful device environment; the executor output is a
plausible netsh interface listing so that the windows index lookup for
interface wg0 succeeds with index 12. -/
def envOK : TunEnv :=
  { createTUNOk := true
    tunName := .ok "wg0"
    ipcSetOk := fun _ => true
    upOk := true
    execF := fun _ =>
      ⟨true, "Idx     Met         MTU          State                Name\n 12      25        1500  connected            wg0\n"⟩ }

/-! ### Helper lemmas -/

/-- A list is a Boolean prefix of itself followed by anything. -/
theorem listIsPrefixOfAppend {α : Type} [BEq α] [LawfulBEq α] (l t : List α) :
    List.isPrefixOf l (l ++ t) = true := by
  induction l with
  | nil => simp
  | cons a as ih => simp [List.isPrefixOf_cons₂, ih]

/-- Go strings.HasPrefix holds for a string built by prepending the
queried prefix. -/
theorem goHasPfx_append_self (p s : String) : goHasPfx (p ++ s) p = true := by
  simp only [goHasPfx, String.data_append]
  exact listIsPrefixOfAppend p.data s.data

/-- Splitting a char list never yields the empty list of fields. -/
theorem splitCharList_ne_nil (sep : Char) (l : List Char) :
    splitCharList sep l ≠ [] := by
  cases l with
  | nil => simp [splitCharList]
  | cons c cs =>
    simp only [splitCharList]
    split
    · simp
    · split <;> simp

/-- Go strings.Split never returns an empty slice: there is always at
least one field. -/
theorem goSplitChar_ne_nil (s : String) (sep : Char) : goSplitChar s sep ≠ [] := by
  simp only [goSplitChar, ne_eq, List.map_eq_nil_iff]
  exact splitCharList_ne_nil sep s.data

/-! ### Claim theorems -/

/-- C1: the claim states that when address assignment or route
installation fails after the tunnel device is up, the connect operation
closes the device (exactly one teardown) before returning the error.
The code does not: Setup returns the failing step error directly and
connect RunE forwards it, with Cleanup reachable only from the signal
handler.  Evaluated at a configuration whose interface address is not a
CIDR, the device is created, configured and activated (up event in the
trace), the address-assignment error is returned, and the trace
contains zero close events. -/
theorem claimC1_partial_failure_leaves_device_unclosed :
    (connectSetupPhase .linux envOK cfgBadAddr).1 = .error "invalid IP address format" ∧
    Event.up ∈ (connectSetupPhase .linux envOK cfgBadAddr).2 ∧
    (connectSetupPhase .linux envOK cfgBadAddr).2.count Event.close = 0 :=
  ⟨rfl, by decide, by decide⟩

/-- C4: the claim states that any activation error is fatal, reported
to the caller, and triggers full unwind.  The code discards the return
value of dev.Up() (setup.go:119): for either value of the activation
outcome, device setup reports success with the same trace, no close
event occurs, and the whole Setup succeeds. -/
theorem claimC4_activation_error_ignored (b : Bool) :
    (setupWireguardDevice .linux { envOK with upOk := b } cfgOK).1 = .ok "wg0" ∧
    Event.up ∈ (setupWireguardDevice .linux { envOK with upOk := b } cfgOK).2 ∧
    Event.close ∉ (setupWireguardDevice .linux { envOK with upOk := b } cfgOK).2 ∧
    (Setup .linux { envOK with upOk := b } cfgOK).1 = .ok () := by
  cases b <;> exact ⟨rfl, by decide, by decide, rfl⟩

/-- C5: the claim states that a configuration source with an absent or
empty allowed_ips field is rejected.  The code cannot reject it: Go
strings.Split never returns an empty slice, so the length check at
config.go:51 is dead code, and a source whose AllowedIPs value is the
empty string parses successfully into a configuration whose allowed
ranges are the single empty string. -/
theorem claimC5_empty_allowed_ips_accepted :
    ParseConfig { srcOK with peerAllowedIPs := "" } =
      .ok ({ cfgOK with Peer := { cfgOK.Peer with AllowedIPs := [""] } }, "12345") ∧
    ∀ s : String, (goSplitChar s ',').length ≠ 0 := by
  refine ⟨rfl, fun s h => ?_⟩
  exact goSplitChar_ne_nil s ',' (List.length_eq_zero.mp h)

/-- C7 counterexample: a configuration source whose interface address
is the non-CIDR string not-a-cidr is accepted by ParseConfig, refuting
the claim that the parser rejects present-but-invalid CIDR addresses. -/
theorem claimC7_counterexample :
    goParseCIDR "not-a-cidr" = none ∧
    ParseConfig { srcOK with interfaceAddress := "not-a-cidr" } =
      .ok ({ cfgOK with Interface := { cfgOK.Interface with Address := "not-a-cidr" } },
           "12345") :=
  ⟨rfl, rfl⟩

/-- C7 (amended): the parser rejects only an absent (empty) interface
address; any source whose required fields are non-empty parses
successfully regardless of whether the address is a CIDR.  CIDR
validity of the local address is enforced later, by the
address-assignment step, which fails closed with no command spawned. -/
theorem claimC7_amended (f : IniFile)
    (h1 : f.portmapConfigID ≠ "") (h2 : f.interfacePrivateKey ≠ "")
    (h3 : f.interfaceAddress ≠ "") (h4 : f.peerPublicKey ≠ "")
    (h5 : f.peerEndpoint ≠ "") :
    ParseConfig f =
      .ok ({ Interface := { PrivateKey := f.interfacePrivateKey
                            Address := f.interfaceAddress
                            DNS := f.interfaceDNS }
             Peer := { PublicKey := f.peerPublicKey
                       AllowedIPs := goSplitChar f.peerAllowedIPs ','
                       Endpoint := f.peerEndpoint
                       PersistentKeepalive := (goParseInt64 f.peerPersistentKeepalive).getD 25 } },
           f.portmapConfigID) ∧
    (∀ (os : Platform) (execF : Cmd → ExecOutcome) (name addr : String),
      goParseCIDR addr = none →
      configureIPAddress os execF name addr = (.error "invalid IP address format", [])) := by
  constructor
  · have hlen : ¬ ((goSplitChar f.peerAllowedIPs ',').length = 0) := fun h =>
      goSplitChar_ne_nil f.peerAllowedIPs ',' (List.length_eq_zero.mp h)
    simp [ParseConfig, h1, h2, h3, h4, h5, hlen]
  · intro os execF name addr h
    simp [configureIPAddress, h]

/-- Witness for C7 (amended) at the concrete source srcOK. -/
theorem claimC7_amended_witness :
    ParseConfig srcOK =
      .ok ({ Interface := { PrivateKey := srcOK.interfacePrivateKey
                            Address := srcOK.interfaceAddress
                            DNS := srcOK.interfaceDNS }
             Peer := { PublicKey := srcOK.peerPublicKey
                       AllowedIPs := goSplitChar srcOK.peerAllowedIPs ','
                       Endpoint := srcOK.peerEndpoint
                       PersistentKeepalive := (goParseInt64 srcOK.peerPersistentKeepalive).getD 25 } },
           srcOK.portmapConfigID) ∧
    (∀ (os : Platform) (execF : Cmd → ExecOutcome) (name addr : String),
      goParseCIDR addr = none →
      configureIPAddress os execF name addr = (.error "invalid IP address format", [])) :=
  claimC7_amended srcOK (by decide) (by decide) (by decide) (by decide) (by decide)

/-- C9 counterexample: a status text whose rx_bytes value does not
parse while tx_bytes does yields the sample (0, 500), not the zero
sample the claim requires for unparseable counter text. -/
theorem claimC9_counterexample :
    GetTrafficStats true (.ok "rx_bytes=abc\ntx_bytes=500\n") = (0, 500) ∧
    ((0, 500) : Nat × Nat) ≠ (0, 0) :=
  ⟨rfl, by decide⟩

/-- C9 (amended): a missing device handle or a failed status query
yields the zero sample and never an error; on a successful query each
counter is parsed independently from its rx_bytes= or tx_bytes= line
with error-discarding uint64 semantics: a well-formed value is
returned, a syntactically invalid value contributes 0 for that counter
only, and an out-of-range value is clamped to 2^64 - 1. -/
theorem claimC9_amended :
    (∀ ipcGet : Except String String, GetTrafficStats false ipcGet = (0, 0)) ∧
    (∀ e : String, GetTrafficStats true (.error e) = (0, 0)) ∧
    GetTrafficStats true (.ok "rx_bytes=123\ntx_bytes=456\nlast_handshake_time_sec=0\n") =
      (123, 456) ∧
    GetTrafficStats true (.ok "rx_bytes=abc\ntx_bytes=500\n") = (0, 500) ∧
    GetTrafficStats true (.ok "rx_bytes=18446744073709551616\ntx_bytes=7\n") =
      (2 ^ 64 - 1, 7) :=
  ⟨fun _ => rfl, fun _ => rfl, rfl, rfl, by decide⟩

/-- C3 counterexample: with an interface name that does not match the
platform pattern but a valid CIDR, address assignment spawns its
external commands and succeeds, refuting the claim that both
operations fail closed without spawning for such names. -/
theorem claimC3_counterexample :
    isValidInterfaceName "wg0;rm" = false ∧
    configureIPAddress .linux execAllOk "wg0;rm" "10.0.0.2/24" =
      (.ok (), [⟨"ip", ["link", "set", "wg0;rm", "up"]⟩,
                ⟨"ip", ["addr", "add", "dev", "wg0;rm", "10.0.0.2/24"]⟩]) :=
  ⟨by decide, rfl⟩

/-- C3 (amended): only route installation fails closed on a
nonconforming interface name (error and no command spawned, for any
nonempty range list); address assignment validates only the local
address, failing closed with no command when it is not a CIDR, and
does not check the interface name: whenever the address parses, it
spawns at least one command for any interface name whatsoever. -/
theorem claimC3_amended (os : Platform) (execF : Cmd → ExecOutcome)
    (name addr ip : String) (rest : List String)
    (hname : isValidInterfaceName name = false) :
    ((addRoutes os execF name addr (ip :: rest)).2 = [] ∧
     isErr (addRoutes os execF name addr (ip :: rest)).1 = true) ∧
    (∀ addr2 : String, goParseCIDR addr2 = none →
      configureIPAddress os execF name addr2 = (.error "invalid IP address format", [])) ∧
    (∀ (addr3 : String) (pr : List Nat × List Nat × Nat), goParseCIDR addr3 = some pr →
      (configureIPAddress .linux execF name addr3).2 ≠ []) := by
  refine ⟨?_, ?_, ?_⟩
  · cases hv : isValidIP ip <;> simp [addRoutes, hv, hname, isErr]
  · intro addr2 h
    simp [configureIPAddress, h]
  · intro addr3 pr h
    obtain ⟨ipb, nw, pl⟩ := pr
    simp only [configureIPAddress, h]
    split
    · simp
    · split <;> simp

/-- Witness for C3 (amended) at a concrete nonconforming name. -/
theorem claimC3_amended_witness :
    isValidInterfaceName "wg0;rm" = false ∧
    (addRoutes .linux execAllOk "wg0;rm" "10.0.0.2/24" ["10.0.0.0/24"]).2 = [] ∧
    isErr (addRoutes .linux execAllOk "wg0;rm" "10.0.0.2/24" ["10.0.0.0/24"]).1 = true :=
  ⟨by decide,
   (claimC3_amended .linux execAllOk "wg0;rm" "10.0.0.2/24" "10.0.0.0/24" [] (by decide)).1.1,
   (claimC3_amended .linux execAllOk "wg0;rm" "10.0.0.2/24" "10.0.0.0/24" [] (by decide)).1.2⟩

/-- C6: for a range that parses neither as a CIDR nor as a bare IP,
route installation returns an error and spawns no command for that
range: the commands spawned on the whole list equal the commands
spawned when processing only the entries before the malformed one. -/
theorem claimC6_malformed_range_no_subprocess (os : Platform)
    (execF : Cmd → ExecOutcome) (name addr bad : String)
    (hbad : isValidIP bad = false) (pre rest : List String) :
    isErr (addRoutes os execF name addr (pre ++ bad :: rest)).1 = true ∧
    (addRoutes os execF name addr (pre ++ bad :: rest)).2 =
      (addRoutes os execF name addr pre).2 := by
  induction pre with
  | nil => simp [addRoutes, hbad, isErr]
  | cons p ps ih =>
    simp only [List.cons_append]
    cases hv : isValidIP p
    · simp [addRoutes, hv, isErr]
    · cases hn : isValidInterfaceName name
      · simp [addRoutes, hv, hn, isErr]
      · rcases hr : routeCmdsForRange os execF name addr p with ⟨r, cs⟩
        cases r with
        | error e => simp [addRoutes, hv, hn, hr, isErr]
        | ok u =>
          have ih1 := ih.1
          have ih2 := ih.2
          simp only [isErr] at ih1
          simp [addRoutes, hv, hn, hr, isErr, ih1, ih2]

/-- Witness for C6 at a concrete malformed range in second position. -/
theorem claimC6_witness :
    isValidIP "not-an-ip" = false ∧
    isErr (addRoutes .linux envOK.execF "wg0" "10.0.0.2/24"
      (["10.0.0.0/24"] ++ "not-an-ip" :: ["10.9.9.9"])).1 = true ∧
    (addRoutes .linux envOK.execF "wg0" "10.0.0.2/24"
      (["10.0.0.0/24"] ++ "not-an-ip" :: ["10.9.9.9"])).2 =
      (addRoutes .linux envOK.execF "wg0" "10.0.0.2/24" ["10.0.0.0/24"]).2 :=
  ⟨by decide,
   (claimC6_malformed_range_no_subprocess .linux envOK.execF "wg0" "10.0.0.2/24"
     "not-an-ip" (by decide) ["10.0.0.0/24"] ["10.9.9.9"]).1,
   (claimC6_malformed_range_no_subprocess .linux envOK.execF "wg0" "10.0.0.2/24"
     "not-an-ip" (by decide) ["10.0.0.0/24"] ["10.9.9.9"]).2⟩

/-- C8: in the monitor loop, after processing a first sample the last
observed sample equals it, so the second tick re-renders the two-line
display exactly when the second sample differs from the first in either
counter; in service mode nothing is ever rendered. -/
theorem claimC8_render_iff_changed (rules : List String) (hrules : rules ≠ [])
    (last0 s1 s2 : Nat × Nat) :
    ((monitorTick false rules (monitorTick false rules last0 s1).1 s2).2 = true ↔ s2 ≠ s1) ∧
    (∀ (rules2 : List String) (last2 sample2 : Nat × Nat),
      (monitorTick true rules2 last2 sample2).2 = false) := by
  have hlen : 0 < rules.length := List.length_pos.mpr hrules
  constructor
  · have hlast : (monitorTick false rules last0 s1).1 = s1 := by
      simp only [monitorTick]
      rw [if_pos ⟨trivial, hlen⟩]
      by_cases h : s1.1 ≠ last0.1 ∨ s1.2 ≠ last0.2
      · rw [if_pos h]
      · rw [if_neg h]
        push_neg at h
        exact Prod.ext_iff.mpr ⟨h.1.symm, h.2.symm⟩
    rw [hlast]
    simp only [monitorTick]
    rw [if_pos ⟨trivial, hlen⟩]
    by_cases h : s2.1 ≠ s1.1 ∨ s2.2 ≠ s1.2
    · rw [if_pos h]
      have hne : s2 ≠ s1 := by
        rcases h with h | h <;> exact fun he => h (by rw [he])
      simp [hne]
    · rw [if_neg h]
      push_neg at h
      have he : s2 = s1 := Prod.ext_iff.mpr ⟨h.1, h.2⟩
      simp [he]
  · intro rules2 last2 sample2
    simp [monitorTick]

/-- Witness for C8 with one mapping rule and equal successive samples. -/
theorem claimC8_witness :
    ((monitorTick false ["rule"] (monitorTick false ["rule"] (0, 0) (5, 7)).1 (5, 7)).2 = true ↔
      ((5, 7) : Nat × Nat) ≠ (5, 7)) ∧
    (∀ (rules2 : List String) (last2 sample2 : Nat × Nat),
      (monitorTick true rules2 last2 sample2).2 = false) :=
  claimC8_render_iff_changed ["rule"] (by decide) (0, 0) (5, 7) (5, 7)

/-- C10: for every configuration whose keys decode, the UAPI text
carries the hex encoding of the base64 decoding of each trimmed key and
the endpoint unchanged (when it carries no surrounding whitespace); the
all-zero 32-byte key decodes from its base64 form to 64 hex zero
characters; a key whose base64 decoding fails yields an error. -/
theorem claimC10_key_conversion (cfg : WireguardConfig) (pk pub : List Nat)
    (hpk : base64DecodeStd (goTrimSpace cfg.Interface.PrivateKey) = some pk)
    (hpub : base64DecodeStd (goTrimSpace cfg.Peer.PublicKey) = some pub)
    (hend : goTrimSpace cfg.Peer.Endpoint = cfg.Peer.Endpoint) :
    buildUapiConfig cfg =
      .ok (joinLines (uapiConfigLines (hexEncode pk) (hexEncode pub)
        cfg.Peer.Endpoint (goTrimSpace (cfg.Peer.AllowedIPs.headD ""))
        cfg.Peer.PersistentKeepalive)) ∧
    convertKey zeroKey = .ok (String.mk (List.replicate 64 '0')) ∧
    base64DecodeStd zeroKey = some (List.replicate 32 0) ∧
    (∀ bad : String, base64DecodeStd (goTrimSpace bad) = none →
      buildUapiConfig { cfg with Interface := { cfg.Interface with PrivateKey := bad } } =
        .error "invalid private key") := by
  refine ⟨?_, by rfl, by decide, ?_⟩
  · simp [buildUapiConfig, convertKey, hpk, hpub, hend]
  · intro bad h
    simp [buildUapiConfig, convertKey, h]

/-- Witness for C10 at the all-zero-key configuration. -/
theorem claimC10_witness :
    buildUapiConfig cfgOK =
      .ok (joinLines (uapiConfigLines (hexEncode (List.replicate 32 0))
        (hexEncode (List.replicate 32 0)) cfgOK.Peer.Endpoint
        (goTrimSpace (cfgOK.Peer.AllowedIPs.headD ""))
        cfgOK.Peer.PersistentKeepalive)) ∧
    convertKey zeroKey = .ok (String.mk (List.replicate 64 '0')) ∧
    base64DecodeStd zeroKey = some (List.replicate 32 0) ∧
    (∀ bad : String, base64DecodeStd (goTrimSpace bad) = none →
      buildUapiConfig { cfgOK with Interface := { cfgOK.Interface with PrivateKey := bad } } =
        .error "invalid private key") :=
  claimC10_key_conversion cfgOK (List.replicate 32 0) (List.replicate 32 0)
    (by decide) (by decide) (by decide)

/-! ### Route-trace lemmas for C2 -/

/-- No private_key line starts with the allowed_ip key. -/
theorem privateLine_no_allowed_pfx (s : String) :
    goHasPfx ("private_key=" ++ s) "allowed_ip=" = false := rfl

/-- No public_key line starts with the allowed_ip key. -/
theorem publicLine_no_allowed_pfx (s : String) :
    goHasPfx ("public_key=" ++ s) "allowed_ip=" = false := rfl

/-- No endpoint line starts with the allowed_ip key. -/
theorem endpointLine_no_allowed_pfx (s : String) :
    goHasPfx ("endpoint=" ++ s) "allowed_ip=" = false := rfl

/-- No keepalive line starts with the allowed_ip key. -/
theorem keepaliveLine_no_allowed_pfx (s : String) :
    goHasPfx ("persistent_keepalive_interval=" ++ s) "allowed_ip=" = false := rfl

/-- On linux, addRoutes over valid ranges with a conforming interface
name and an all-success executor runs exactly one route-add command per
range, in order. -/
theorem addRoutes_linux_trace (execF : Cmd → ExecOutcome)
    (hexec : ∀ c, (execF c).success = true) (name addr : String)
    (hname : isValidInterfaceName name = true) :
    ∀ ips : List String, (∀ ip ∈ ips, isValidIP ip = true) →
      addRoutes .linux execF name addr ips =
        (.ok (), ips.map (fun ip => (⟨"ip", ["route", "add", ip, "dev", name]⟩ : Cmd))) := by
  intro ips
  induction ips with
  | nil => intro _; rfl
  | cons ip rest ih =>
    intro hv
    have hip := hv ip (List.mem_cons_self ip rest)
    have hrest : ∀ x ∈ rest, isValidIP x = true :=
      fun x hx => hv x (List.mem_cons_of_mem _ hx)
    simp [addRoutes, hip, hname, routeCmdsForRange, hexec, ih hrest]

/-- On darwin, addRoutes over valid ranges with a conforming interface
name and an all-success executor runs exactly one route-add command per
range, in order. -/
theorem addRoutes_darwin_trace (execF : Cmd → ExecOutcome)
    (hexec : ∀ c, (execF c).success = true) (name addr : String)
    (hname : isValidInterfaceName name = true) :
    ∀ ips : List String, (∀ ip ∈ ips, isValidIP ip = true) →
      addRoutes .darwin execF name addr ips =
        (.ok (), ips.map (fun ip => (⟨"route", ["add", "-net", ip, "-interface", name]⟩ : Cmd))) := by
  intro ips
  induction ips with
  | nil => intro _; rfl
  | cons ip rest ih =>
    intro hv
    have hip := hv ip (List.mem_cons_self ip rest)
    have hrest : ∀ x ∈ rest, isValidIP x = true :=
      fun x hx => hv x (List.mem_cons_of_mem _ hx)
    simp [addRoutes, hip, hname, routeCmdsForRange, hexec, ih hrest]

/-- The windows interface-index query is not a route-add command. -/
theorem winIfaceQuery_not_route : (winIfaceQuery.prog == "route") = false := rfl

/-- On windows, addRoutes over CIDR ranges with a resolvable interface
index and an all-success executor succeeds, runs exactly one route-add
command per range, and two commands per range in total (the extra one
is the per-range interface-index query). -/
theorem addRoutes_windows_stats (execF : Cmd → ExecOutcome)
    (hexec : ∀ c, (execF c).success = true) (name addr idx : String)
    (hname : isValidInterfaceName name = true)
    (hidx : findInterfaceIndex (execF winIfaceQuery).output name = some idx) :
    ∀ ips : List String, (∀ ip ∈ ips, (goParseCIDR ip).isSome = true) →
      (addRoutes .windows execF name addr ips).1 = .ok () ∧
      ((addRoutes .windows execF name addr ips).2.filter
        (fun c => c.prog == "route")).length = ips.length ∧
      (addRoutes .windows execF name addr ips).2.length = 2 * ips.length := by
  intro ips
  induction ips with
  | nil => intro _; exact ⟨rfl, rfl, rfl⟩
  | cons ip rest ih =>
    intro hv
    have hip := hv ip (List.mem_cons_self ip rest)
    obtain ⟨⟨ipb, nw, pl⟩, hpr⟩ := Option.isSome_iff_exists.mp hip
    have hvip : isValidIP ip = true := by simp [isValidIP, hpr]
    have hrest : ∀ x ∈ rest, (goParseCIDR x).isSome = true :=
      fun x hx => hv x (List.mem_cons_of_mem _ hx)
    obtain ⟨ih1, ih2, ih3⟩ := ih hrest
    refine ⟨?_, ?_, ?_⟩ <;>
      simp [addRoutes, hvip, hname, routeCmdsForRange, hexec, hidx, hpr,
            ih1, ih2, ih3, List.filter, winIfaceQuery_not_route, Nat.mul_succ]

/-- C2: the UAPI peer record carries exactly one allowed_ip line and it
holds only the (trimmed) first allowed range, while route installation
issues one route-add command per range: on linux and darwin the command
trace is exactly the n per-range route-adds in order, and on windows
there are exactly n route-add commands among the 2n commands run (each
range adds one interface-index query). -/
theorem claimC2_first_range_only_in_peer_record (cfg : WireguardConfig)
    (r : String) (rest : List String) (pk pub : List Nat)
    (execF : Cmd → ExecOutcome) (name idx : String)
    (hips : cfg.Peer.AllowedIPs = r :: rest)
    (hpk : base64DecodeStd (goTrimSpace cfg.Interface.PrivateKey) = some pk)
    (hpub : base64DecodeStd (goTrimSpace cfg.Peer.PublicKey) = some pub)
    (hexec : ∀ c, (execF c).success = true)
    (hname : isValidInterfaceName name = true)
    (hvalid : ∀ ip ∈ cfg.Peer.AllowedIPs, isValidIP ip = true)
    (hcidr : ∀ ip ∈ cfg.Peer.AllowedIPs, (goParseCIDR ip).isSome = true)
    (hidx : findInterfaceIndex (execF winIfaceQuery).output name = some idx) :
    buildUapiConfig cfg =
      .ok (joinLines (uapiConfigLines (hexEncode pk) (hexEncode pub)
        (goTrimSpace cfg.Peer.Endpoint) (goTrimSpace r) cfg.Peer.PersistentKeepalive)) ∧
    (uapiConfigLines (hexEncode pk) (hexEncode pub) (goTrimSpace cfg.Peer.Endpoint)
        (goTrimSpace r) cfg.Peer.PersistentKeepalive).filter
        (fun l => goHasPfx l "allowed_ip=") = ["allowed_ip=" ++ goTrimSpace r] ∧
    addRoutes .linux execF name cfg.Interface.Address cfg.Peer.AllowedIPs =
      (.ok (), cfg.Peer.AllowedIPs.map
        (fun ip => (⟨"ip", ["route", "add", ip, "dev", name]⟩ : Cmd))) ∧
    addRoutes .darwin execF name cfg.Interface.Address cfg.Peer.AllowedIPs =
      (.ok (), cfg.Peer.AllowedIPs.map
        (fun ip => (⟨"route", ["add", "-net", ip, "-interface", name]⟩ : Cmd))) ∧
    ((addRoutes .windows execF name cfg.Interface.Address cfg.Peer.AllowedIPs).1 = .ok () ∧
     ((addRoutes .windows execF name cfg.Interface.Address cfg.Peer.AllowedIPs).2.filter
        (fun c => c.prog == "route")).length = cfg.Peer.AllowedIPs.length ∧
     (addRoutes .windows execF name cfg.Interface.Address cfg.Peer.AllowedIPs).2.length =
       2 * cfg.Peer.AllowedIPs.length) := by
  refine ⟨?_, ?_, ?_, ?_, ?_⟩
  · simp [buildUapiConfig, convertKey, hpk, hpub, hips]
  · simp [List.filter, privateLine_no_allowed_pfx, publicLine_no_allowed_pfx,
          endpointLine_no_allowed_pfx, keepaliveLine_no_allowed_pfx,
          goHasPfx_append_self, uapiConfigLines]
  · exact addRoutes_linux_trace execF hexec name _ hname cfg.Peer.AllowedIPs hvalid
  · exact addRoutes_darwin_trace execF hexec name _ hname cfg.Peer.AllowedIPs hvalid
  · exact addRoutes_windows_stats execF hexec name _ idx hname hidx cfg.Peer.AllowedIPs hcidr

/-- Witness for C2 at the specification example: two allowed ranges
10.0.0.0/24 and 10.0.1.0/24 with the all-zero keys. -/
theorem claimC2_witness :
    buildUapiConfig cfgOK =
      .ok (joinLines (uapiConfigLines (hexEncode (List.replicate 32 0))
        (hexEncode (List.replicate 32 0)) (goTrimSpace cfgOK.Peer.Endpoint)
        (goTrimSpace "10.0.0.0/24") cfgOK.Peer.PersistentKeepalive)) ∧
    (uapiConfigLines (hexEncode (List.replicate 32 0)) (hexEncode (List.replicate 32 0))
        (goTrimSpace cfgOK.Peer.Endpoint) (goTrimSpace "10.0.0.0/24")
        cfgOK.Peer.PersistentKeepalive).filter
        (fun l => goHasPfx l "allowed_ip=") = ["allowed_ip=" ++ goTrimSpace "10.0.0.0/24"] ∧
    addRoutes .linux envOK.execF "wg0" cfgOK.Interface.Address cfgOK.Peer.AllowedIPs =
      (.ok (), cfgOK.Peer.AllowedIPs.map
        (fun ip => (⟨"ip", ["route", "add", ip, "dev", "wg0"]⟩ : Cmd))) ∧
    addRoutes .darwin envOK.execF "wg0" cfgOK.Interface.Address cfgOK.Peer.AllowedIPs =
      (.ok (), cfgOK.Peer.AllowedIPs.map
        (fun ip => (⟨"route", ["add", "-net", ip, "-interface", "wg0"]⟩ : Cmd))) ∧
    ((addRoutes .windows envOK.execF "wg0" cfgOK.Interface.Address cfgOK.Peer.AllowedIPs).1 = .ok () ∧
     ((addRoutes .windows envOK.execF "wg0" cfgOK.Interface.Address cfgOK.Peer.AllowedIPs).2.filter
        (fun c => c.prog == "route")).length = cfgOK.Peer.AllowedIPs.length ∧
     (addRoutes .windows envOK.execF "wg0" cfgOK.Interface.Address cfgOK.Peer.AllowedIPs).2.length =
       2 * cfgOK.Peer.AllowedIPs.length) :=
  claimC2_first_range_only_in_peer_record cfgOK "10.0.0.0/24" ["10.0.1.0/24"]
    (List.replicate 32 0) (List.replicate 32 0) envOK.execF "wg0" "12"
    rfl (by decide) (by decide) (fun _ => rfl) (by decide) (by decide) (by decide) rfl

end Portmap
